import Mathlib

/-!
A verification development for the extensions install/load subsystem
(`chrome/browser/extensions`).  The repository under review ships only the
unit test `extensions_service_unittest.cc`; the implementation files
(`extensions_service.cc`, `extension.cc`, `url_pattern.cc`) are not part of
the source tree, so every operational definition below is modelled from the
specification (`spec.md`), faithful to its words, and cross-checked against
the concrete expectations recorded in the unit test.
-/

namespace ExtSpec

/-- Modelled from the spec: URL match patterns are parsed into a structured
form (scheme, host with optional wildcard subdomain, path with optional
wildcard suffix), §4.1.  The implementation (`url_pattern.cc`) is not in the
source tree. -/
structure URLPattern where
  scheme : List Char
  matchSubdomains : Bool
  host : List Char
  path : List Char
deriving DecidableEq, Repr

/-- The literal `://` separating scheme from host in a pattern string. -/
def schemeSep : List Char := [':', '/', '/']

/-- Characters allowed in a scheme component (lower-case letters). -/
def isSchemeChar (c : Char) : Bool := c.isLower

/-- Characters allowed in the non-wildcard part of a host component. -/
def isHostChar (c : Char) : Bool := c.isAlphanum || c = '.' || c = '-'

/-- Modelled from the spec: parsing a URL match pattern string (§4.1).
The scheme is the maximal run of scheme characters, followed by `://`;
the host runs until the first `/`; a leading `*.` (or a bare `*`) marks the
wildcard-subdomain form; the remainder, beginning with `/`, is the path. -/
def parseData (cs : List Char) : Option URLPattern :=
  let scheme := cs.takeWhile isSchemeChar
  let rest0 := cs.dropWhile isSchemeChar
  if scheme = [] then none
  else if rest0.take 3 ≠ schemeSep then none
  else
    let rest := rest0.drop 3
    let host := rest.takeWhile (fun c => c ≠ '/')
    let path := rest.dropWhile (fun c => c ≠ '/')
    if path = [] then none
    else if host = ['*'] then some ⟨scheme, true, [], path⟩
    else if host.take 2 = ['*', '.'] then
      let sub := host.drop 2
      if sub ≠ [] ∧ sub.all isHostChar then some ⟨scheme, true, sub, path⟩ else none
    else if host.all isHostChar then some ⟨scheme, false, host, path⟩ else none

/-- The serialized host component: `*`, `*.host`, or `host`. -/
def hostData (p : URLPattern) : List Char :=
  if p.matchSubdomains then '*' :: (if p.host = [] then [] else '.' :: p.host)
  else p.host

/-- Modelled from the spec: `URLPattern::GetAsString` serializes the parsed
pattern back to its canonical string form (§4.1). -/
def URLPattern.GetAsString (p : URLPattern) : String :=
  String.mk (p.scheme ++ schemeSep ++ hostData p ++ p.path)

/-- Parsing entry point on strings. -/
def URLPattern.parse (s : String) : Option URLPattern := parseData s.data

/-- Modelled from the spec: §3, the location tag of a package. -/
inductive Location where
  | internal
  | external
  | load
deriving DecidableEq, Repr

/-- Lower-case hexadecimal digit characters. -/
def hexChar (d : Nat) : Char :=
  if d < 10 then Char.ofNat (48 + d) else Char.ofNat (87 + d)

/-- Exactly `k` hexadecimal digits of `n`, most significant first, left-padded with
zeros. -/
def hexDigitsFixed : Nat → Nat → List Char
  | 0, _ => []
  | k + 1, n => hexDigitsFixed k (n / 16) ++ [hexChar (n % 16)]

/-- Modelled from the spec: §4.2, the counter formatted as 40 hex digits,
left-padded with zeros. -/
def toHex40 (n : Nat) : String := String.mk (hexDigitsFixed 40 n)

/-- Modelled from the spec: §4.2, the ID Generator's process-wide state, a
monotonically increasing counter, zero-initialized at process start. -/
structure IdGenState where
  counter : Nat
deriving DecidableEq, Repr

/-- The generator state at process start. -/
def initGenState : IdGenState := ⟨0⟩

/-- Modelled from the spec: §4.2, on each call without a declared id,
return the counter formatted as 40 hex digits, then increment it. -/
def generateId (g : IdGenState) : String × IdGenState :=
  (toHex40 g.counter, ⟨g.counter + 1⟩)

/-- Modelled from the spec: §4.2, a declared id bypasses the generator and
is used unchanged. -/
def resolveId (declared : Option String) (g : IdGenState) : String × IdGenState :=
  match declared with
  | some i => (i, g)
  | none => generateId g

/-- One content-script injection rule (§3): ordered URL patterns plus
ordered script file references. -/
structure UserScript where
  url_patterns : List URLPattern
  js_scripts : List String
deriving DecidableEq, Repr

/-- Modelled from the spec: §3, the validated, immutable representation of
one package. -/
structure Extension where
  id : String
  name : String
  description : String
  location : Location
  content_scripts : List UserScript
  path : String
  url : String
deriving DecidableEq, Repr

/-- The single-quote character, used inside diagnostic messages. -/
def sq : String := String.mk [Char.ofNat 39]

/-- Modelled from the spec: the origin URL derived from the id alone
(`Extension::url` as recorded in the unit test). -/
def extensionUrlFor (id : String) : String :=
  "chrome-extension://" ++ id ++ "/"

/-- Lower-case hexadecimal characters. -/
def isHexLower (c : Char) : Bool := c.isDigit || ('a' ≤ c && c ≤ 'f')

/-- Per the §3 invariant, an id is exactly 40 lowercase hex characters. -/
def validExtensionId (s : String) : Bool :=
  (s.length == 40) && s.data.all isHexLower

/-- A JSON-like document (the manifest format of §4.1). -/
inductive JsonValue where
  | null
  | bool (b : Bool)
  | num (n : Int)
  | str (s : String)
  | arr (elems : List JsonValue)
  | obj (fields : List (String × JsonValue))

/-- First value bound to `key` in a JSON object's field list. -/
def jsonLookup (fields : List (String × JsonValue)) (key : String) :
    Option JsonValue :=
  match fields with
  | [] => none
  | (k, v) :: rest => if k = key then some v else jsonLookup rest key

/-- The error taxonomy of §7 relevant to loading a package from a
directory. -/
inductive LoadErrorKind where
  | badRootElementType (posInfo : String)
  | missingFile (fileName : String)
  | invalidManifest (key : String)
  | cannotReadFile (fileName : String)
deriving DecidableEq, Repr

/-- The text of `JSONReader::kBadRootElementType` (§4.1 step 1 diagnostic). -/
def kBadRootElementTypeText : String := "Root value must be an array or object."

/-- Modelled from the spec: §6, the reason part of a diagnostic: a
bad-root-element-type diagnostic, a missing-file diagnostic naming the file,
an invalid-manifest diagnostic naming the violated field, or a read-failure
diagnostic naming the unreadable file. -/
def reasonText : LoadErrorKind → String
  | .badRootElementType pos => pos ++ " " ++ kBadRootElementTypeText
  | .missingFile f => "Could not load file " ++ sq ++ f ++ sq ++ "."
  | .invalidManifest key =>
      "Manifest is missing or invalid for key " ++ sq ++ key ++ sq ++ "."
  | .cannotReadFile f => "Could not read " ++ sq ++ f ++ sq ++ " file."

/-- Modelled from the spec: §6, the formatted Error Reporter message for
one failed package. -/
def formatLoadError (path : String) (k : LoadErrorKind) : String :=
  "Could not load extension from " ++ sq ++ path ++ sq ++ ". " ++ reasonText k

/-- The manifest document of one package as read from disk, at the JSON
reader boundary. -/
inductive RawManifest where
  | unreadable (fileName : String)
  | malformed (posInfo : String)
  | value (v : JsonValue)

/-- Modelled from the spec: §4.5, one candidate package subdirectory: its
root path, the manifest read result, and the file references that exist
relative to the root. -/
structure PackageDir where
  path : String
  manifest : RawManifest
  files : List String

/-- The validated content of a manifest, before id resolution. -/
structure ManifestData where
  declaredId : Option String
  name : String
  description : String
  content_scripts : List UserScript
deriving DecidableEq, Repr

/-- Per §4.1, each URL match pattern must parse; the whole list fails on the
first malformed pattern. -/
def parsePatterns : List JsonValue → Except LoadErrorKind (List URLPattern)
  | [] => .ok []
  | .str s :: rest =>
    match URLPattern.parse s with
    | some p => (parsePatterns rest).map (fun ps => p :: ps)
    | none => .error (.invalidManifest "matches")
  | _ :: _ => .error (.invalidManifest "matches")

/-- Per §4.1 step 3, every referenced script file must exist relative to the
package root. -/
def parseScriptFiles (files : List String) :
    List JsonValue → Except LoadErrorKind (List String)
  | [] => .ok []
  | .str s :: rest =>
    if files.contains s then (parseScriptFiles files rest).map (fun ss => s :: ss)
    else .error (.missingFile s)
  | _ :: _ => .error (.invalidManifest "js")

/-- One content-script entry: an object with a non-empty `matches` list (a
pattern-less script is a manifest error, §3) and script file references. -/
def parseScript (files : List String) : JsonValue → Except LoadErrorKind UserScript
  | .obj fields =>
    match jsonLookup fields "matches" with
    | some (.arr pats) =>
      if pats.isEmpty then .error (.invalidManifest "matches")
      else
        match parsePatterns pats with
        | .error e => .error e
        | .ok ps =>
          match jsonLookup fields "js" with
          | none => .ok ⟨ps, []⟩
          | some (.arr jss) =>
            match parseScriptFiles files jss with
            | .error e => .error e
            | .ok ss => .ok ⟨ps, ss⟩
          | some _ => .error (.invalidManifest "js")
    | _ => .error (.invalidManifest "matches")
  | _ => .error (.invalidManifest "content_scripts")

/-- All content-script entries, failing on the first invalid one. -/
def parseScripts (files : List String) :
    List JsonValue → Except LoadErrorKind (List UserScript)
  | [] => .ok []
  | v :: rest =>
    match parseScript files v with
    | .error e => .error e
    | .ok s =>
      match parseScripts files rest with
      | .error e => .error e
      | .ok ss => .ok (s :: ss)

/-- Per §4.2 and §3, a declared id must be exactly 40 lowercase hex characters. -/
def parseDeclaredId (fields : List (String × JsonValue)) :
    Except LoadErrorKind (Option String) :=
  match jsonLookup fields "id" with
  | none => .ok none
  | some (.str s) =>
    if validExtensionId s then .ok (some s) else .error (.invalidManifest "id")
  | some _ => .error (.invalidManifest "id")

/-- Per §4.1 step 2, `name` is required, a non-empty string. -/
def parseName (fields : List (String × JsonValue)) :
    Except LoadErrorKind String :=
  match jsonLookup fields "name" with
  | some (.str s) => if s = "" then .error (.invalidManifest "name") else .ok s
  | _ => .error (.invalidManifest "name")

/-- Per §3, `description` is optional and defaults to empty. -/
def parseDescription (fields : List (String × JsonValue)) :
    Except LoadErrorKind String :=
  match jsonLookup fields "description" with
  | none => .ok ""
  | some (.str s) => .ok s
  | some _ => .error (.invalidManifest "description")

/-- Per §3, `content_scripts` is an optional ordered sequence. -/
def parseContentScripts (files : List String)
    (fields : List (String × JsonValue)) :
    Except LoadErrorKind (List UserScript) :=
  match jsonLookup fields "content_scripts" with
  | none => .ok []
  | some (.arr xs) => parseScripts files xs
  | some _ => .error (.invalidManifest "content_scripts")

/-- Modelled from the spec: §4.1, the Manifest Parser: produce a fully
validated manifest or the first violated constraint, in deterministic
order: root element, declared id, required `name`, `description`, then the
content scripts with their patterns and file references. -/
def parseManifest (pkg : PackageDir) : Except LoadErrorKind ManifestData :=
  match pkg.manifest with
  | .unreadable f => .error (.cannotReadFile f)
  | .malformed pos => .error (.badRootElementType pos)
  | .value (.obj fields) =>
    match parseDeclaredId fields with
    | .error e => .error e
    | .ok declaredId =>
      match parseName fields with
      | .error e => .error e
      | .ok name =>
        match parseDescription fields with
        | .error e => .error e
        | .ok descr =>
          match parseContentScripts pkg.files fields with
          | .error e => .error e
          | .ok scripts => .ok ⟨declaredId, name, descr, scripts⟩
  | .value _ => .error (.badRootElementType "")

/-- Construct the immutable Extension (§3); the origin URL is computed from
the id at construction. -/
def mkExtension (id : String) (m : ManifestData) (path : String)
    (loc : Location) : Extension :=
  ⟨id, m.name, m.description, loc, m.content_scripts, path, extensionUrlFor id⟩

/-- Modelled from the spec: §4.5, load one package directory: parse the
manifest, resolve the id (fresh sequential id unless the manifest embeds
one), and construct the Extension. -/
def loadPackage (pkg : PackageDir) (loc : Location) (g : IdGenState) :
    Except LoadErrorKind Extension × IdGenState :=
  match parseManifest pkg with
  | .error e => (.error e, g)
  | .ok m =>
    (.ok (mkExtension (resolveId m.declaredId g).1 m pkg.path loc),
      (resolveId m.declaredId g).2)

/-- Per §4.5, a single load of an already-unpacked directory: location `LOAD`. -/
def LoadSingleExtension (pkg : PackageDir) (g : IdGenState) :
    Except LoadErrorKind Extension × IdGenState :=
  loadPackage pkg .load g

/-- A sequence of single loads, threading the generator state. -/
def loadSequence (pkgs : List PackageDir) (g : IdGenState) :
    List (Except LoadErrorKind Extension) × IdGenState :=
  match pkgs with
  | [] => ([], g)
  | p :: rest =>
    let r := LoadSingleExtension p g
    let next := loadSequence rest r.2
    (r.1 :: next.1, next.2)

/-- Modelled from the spec: §4.4, §6, one on-disk store record: the id
root, one subdirectory per installed version, and the current-version
marker file (`none` when the marker file is missing). -/
structure StoreRecord where
  id : String
  versions : List String
  currentMarker : Option String
deriving DecidableEq, Repr

/-- Modelled from the spec: §4.4, the install root, one record per id. -/
abbrev Store := List StoreRecord

/-- The record rooted at `id`, when present. -/
def lookupRecord (st : Store) (id : String) : Option StoreRecord :=
  match st with
  | [] => none
  | r :: rest => if r.id = id then some r else lookupRecord rest id

/-- The outcome of reading the current-version marker (§4.4). -/
inductive ResolveResult where
  | noRecord
  | noCurrentVersion
  | current (v : String)
deriving DecidableEq, Repr

/-- Modelled from the spec: §4.4, `ResolveCurrent(id)`: a missing marker
under an existing id root means "no current version recorded", never an
error. -/
def ResolveCurrent (st : Store) (id : String) : ResolveResult :=
  match lookupRecord st id with
  | none => .noRecord
  | some r =>
    match r.currentMarker with
    | none => .noCurrentVersion
    | some v => .current v

/-- Modelled from the spec: §4.4, `Uninstall(id)`: recursively delete the
id root when present; a missing root is a benign no-op.  The Bool reports
whether an error was reported (never, §4.4). -/
def Uninstall (st : Store) (id : String) : Store × Bool :=
  (st.filter (fun r => ¬ r.id = id), false)

/-- Replace (or add) the record whose id matches `r.id`. -/
def setRecord (st : Store) (r : StoreRecord) : Store :=
  match st with
  | [] => [r]
  | x :: rest => if x.id = r.id then r :: rest else x :: setRecord rest r

/-- Install-time failures (§4.3 container reading, §4.2 derived id, and
manifest validation of the extracted payload). -/
inductive InstallError where
  | cannotRead
  | badMagicNumber
  | invalidSignature
  | badDerivedId
  | manifestError (e : LoadErrorKind)
deriving DecidableEq, Repr

/-- Modelled from the spec: §4.3, §6, an abstract signed container — the
observations the validator makes of the on-disk file, plus the extracted
staging payload. -/
structure Container where
  path : String
  byteLength : Nat
  magicOk : Bool
  declaredLengthsOk : Bool
  signatureOk : Bool
  keyId : String
  version : String
  payload : PackageDir

/-- Modelled from the spec: §4.3, container validation steps in order:
empty file, magic header, declared-length reads, signature over the
payload, derived id shape, then manifest validation of the extracted
payload.  The first failing step aborts. -/
def validateContainer (c : Container) : Option InstallError :=
  if c.byteLength = 0 then some .cannotRead
  else if ¬ c.magicOk then some .badMagicNumber
  else if ¬ c.declaredLengthsOk then some .cannotRead
  else if ¬ c.signatureOk then some .invalidSignature
  else if ¬ validExtensionId c.keyId then some .badDerivedId
  else
    match parseManifest c.payload with
    | .error e => some (.manifestError e)
    | .ok _ => none

/-- The diagnostic recorded for a failed install. -/
def installReasonText : InstallError → String
  | .cannotRead => "Could not read the container file."
  | .badMagicNumber => "Bad magic number."
  | .invalidSignature => "Signature verification failed."
  | .badDerivedId => "Invalid derived extension id."
  | .manifestError e => reasonText e

/-- Modelled from the spec: §6 states a single message shape for one
failed package — `Could not load extension from <path>. <reason>` — which
the install workflow uses as well; the reason of a container-stage failure
is that step's own diagnostic from the §7 taxonomy. -/
def formatInstallError (path : String) (e : InstallError) : String :=
  "Could not load extension from " ++ sq ++ path ++ sq ++ ". " ++
    installReasonText e

/-- The terminal notification of a single install request (§4.5, §6):
exactly one of `OnExtensionInstalled`, `OnExtensionVersionReinstalled`, or
a failure. -/
inductive Notification where
  | installed (ext : Extension) (isUpdate : Bool)
  | reinstalled (id : String)
  | failed (e : InstallError)
deriving DecidableEq, Repr

/-- Modelled from the spec: §4.4 Commit, §4.5 single install, validate the
container; on failure leave the store untouched, reach the failed terminal
state and record exactly one error.  Otherwise commit: fresh install when
no record exists; reinstall (disk untouched) when the incoming version
equals the currently marked one; upgrade (marker rewritten, old version
retained) otherwise. -/
def InstallExtension (st : Store) (c : Container) :
    Store × Notification × List String :=
  match validateContainer c with
  | some e => (st, .failed e, [formatInstallError c.path e])
  | none =>
    match parseManifest c.payload with
    | .error e => (st, .failed (.manifestError e), [formatInstallError c.path (.manifestError e)])
    | .ok m =>
      let ext := mkExtension c.keyId m c.payload.path .internal
      match lookupRecord st c.keyId with
      | none =>
        (setRecord st ⟨c.keyId, [c.version], some c.version⟩, .installed ext false, [])
      | some r =>
        if r.currentMarker = some c.version then (st, .reinstalled c.keyId, [])
        else
          (setRecord st ⟨c.keyId, c.version :: r.versions, some c.version⟩,
            .installed ext true, [])

/-- A sequence of install requests against one store; the notification list
records the terminal notification of each request in order. -/
def runInstalls (st : Store) (cs : List Container) :
    Store × List Notification × List String :=
  match cs with
  | [] => (st, [], [])
  | c :: rest =>
    let r := InstallExtension st c
    let next := runInstalls r.1 rest
    (next.1, r.2.1 :: next.2.1, r.2.2 ++ next.2.2)

/-- The name order used for delivering a bulk load (§4.5). -/
def nameLE (a b : Extension) : Bool := a.name ≤ b.name

/-- Modelled from the spec: §4.5 bulk load, scan the candidate
subdirectories in order; a failed package contributes one formatted error,
a loaded package one Extension; failures never abort the scan. -/
def loadAllAux (pkgs : List PackageDir) (g : IdGenState) :
    List Extension × List String × IdGenState :=
  match pkgs with
  | [] => ([], [], g)
  | p :: rest =>
    let r := loadPackage p .internal g
    let next := loadAllAux rest r.2
    match r.1 with
    | .ok e => (e :: next.1, next.2.1, next.2.2)
    | .error k => (next.1, formatLoadError p.path k :: next.2.1, next.2.2)

/-- Modelled from the spec: §4.5, the full bulk directory load: the single
`OnExtensionsLoaded` delivery holds the successfully loaded Extensions
ordered by declared name (ties broken by original scan order, via a stable
sort), and the accumulated errors are delivered separately. -/
def LoadExtensionsFromDirectory (pkgs : List PackageDir) (g : IdGenState) :
    List Extension × List String × IdGenState :=
  ((loadAllAux pkgs g).1.mergeSort nameLE, (loadAllAux pkgs g).2.1,
    (loadAllAux pkgs g).2.2)

/-- The formatted errors of the failing packages, in scan order. -/
def loadErrorsOf (pkgs : List PackageDir) : List String :=
  match pkgs with
  | [] => []
  | p :: rest =>
    match parseManifest p with
    | .error k => formatLoadError p.path k :: loadErrorsOf rest
    | .ok _ => loadErrorsOf rest

/-- The well-formed test package (`good/extension1`): declared id, name,
description, content scripts with two patterns and two script files. -/
def goodPkg : PackageDir :=
  ⟨"/ext/good",
   .value (.obj
     [("id", .str "00123456789abcdef0123456789abcdef0123456"),
      ("name", .str "My extension 1"),
      ("description", .str "The first extension that I made."),
      ("content_scripts", .arr
        [.obj [("matches", .arr [.str "http://*.google.com/*",
                                 .str "https://*.google.com/*"]),
               ("js", .arr [.str "script1.js", .str "script2.js"])]])]),
   ["script1.js", "script2.js"]⟩

/-- A package whose root JSON does not parse (bad root element type). -/
def badRootPkg : PackageDir :=
  ⟨"/ext/bad/bad_root", .malformed "Line 2, Column 1:", []⟩

/-- A package whose manifest references a script file that does not
exist. -/
def missingFilePkg : PackageDir :=
  ⟨"/ext/bad/missing_file",
   .value (.obj
     [("name", .str "My extension 2"),
      ("content_scripts", .arr
        [.obj [("matches", .arr [.str "http://*.google.com/*"]),
               ("js", .arr [.str "missing.js"])]])]),
   []⟩

/-- A package whose manifest file cannot be read. -/
def unreadablePkg : PackageDir :=
  ⟨"/ext/bad/unreadable", .unreadable "manifest.json", []⟩

/-- An id-less unpacked package (the `no_id` test directory). -/
def noIdPkg : PackageDir :=
  ⟨"/ext/no_id", .value (.obj [("name", .str "My extension")]), []⟩

/-- A well-formed container (`good.crx`). -/
def goodContainer : Container :=
  ⟨"/ext/good.crx", 100, true, true, true,
   "00123456789abcdef0123456789abcdef0123456", "1.0.0.0", goodPkg⟩

/-- A zero-length container file (`not_an_extension.crx`). -/
def emptyContainer : Container :=
  ⟨"/ext/not_an_extension.crx", 0, false, false, false, "", "",
   unreadablePkg⟩

/-- Whether a package's manifest validates (§4.5: Loaded vs LoadFailed). -/
def manifestOk (p : PackageDir) : Bool :=
  match parseManifest p with
  | .ok _ => true
  | .error _ => false

/-- A second well-formed test package, named after the first one. -/
def goodPkg2 : PackageDir :=
  ⟨"/ext/good2",
   .value (.obj
     [("id", .str "10123456789abcdef0123456789abcdef0123456"),
      ("name", .str "My extension 2")]),
   []⟩

/-- The bulk-load test directory: one well-formed and three malformed
packages (bad root JSON, missing referenced file, unreadable file). -/
def sampleBadDir : List PackageDir :=
  [goodPkg, badRootPkg, missingFilePkg, unreadablePkg]

/-- Modelled from the spec: §4.5/§6, the Error Reporter content of one
single-load request: a failed single load records exactly one formatted
message, a successful one records none. -/
def singleLoadErrors (pkg : PackageDir) (g : IdGenState) : List String :=
  match (LoadSingleExtension pkg g).1 with
  | .error k => [formatLoadError pkg.path k]
  | .ok _ => []

/-- A container with a wrong magic number (`bad_magic.crx`). -/
def badMagicContainer : Container :=
  ⟨"/ext/bad_magic.crx", 100, false, true, true, "", "", unreadablePkg⟩

/-- Splitting a character list at the scheme separator and then at the first
slash loses nothing: the four parsed segments concatenate back to the
input. -/
theorem segments_concat (cs : List Char)
    (hsep : (cs.dropWhile isSchemeChar).take 3 = schemeSep) :
    cs.takeWhile isSchemeChar ++ schemeSep ++
      ((cs.dropWhile isSchemeChar).drop 3).takeWhile (fun c => c ≠ '/') ++
      ((cs.dropWhile isSchemeChar).drop 3).dropWhile (fun c => c ≠ '/') = cs := by
  conv_rhs =>
    rw [← List.takeWhile_append_dropWhile (p := isSchemeChar) (l := cs),
      ← List.take_append_drop 3 (cs.dropWhile isSchemeChar)]
  rw [hsep]
  simp [List.append_assoc, List.takeWhile_append_dropWhile]

/-- Any successfully parsed pattern's four components concatenate back to
the exact input character list. -/
theorem parseData_round (cs : List Char) (p : URLPattern)
    (h : parseData cs = some p) :
    p.scheme ++ schemeSep ++ hostData p ++ p.path = cs := by
  simp only [parseData] at h
  split at h
  · exact absurd h (by simp)
  · split at h
    · exact absurd h (by simp)
    · rename_i hsep
      rw [not_not] at hsep
      split at h
      · exact absurd h (by simp)
      · split at h
        · rename_i hstar
          cases h
          show _ ++ schemeSep ++ hostData ⟨_, true, [], _⟩ ++ _ = cs
          have hd : hostData ⟨cs.takeWhile isSchemeChar, true, ([] : List Char),
              ((cs.dropWhile isSchemeChar).drop 3).dropWhile (fun c => c ≠ '/')⟩ =
              ((cs.dropWhile isSchemeChar).drop 3).takeWhile (fun c => c ≠ '/') := by
            rw [hostData, hstar]
            rfl
          rw [hd]
          exact segments_concat cs hsep
        · rename_i hstar
          split at h
          · rename_i hwild
            split at h
            · rename_i hcond
              cases h
              have hd : hostData ⟨cs.takeWhile isSchemeChar, true,
                  (((cs.dropWhile isSchemeChar).drop 3).takeWhile
                    (fun c => c ≠ '/')).drop 2,
                  ((cs.dropWhile isSchemeChar).drop 3).dropWhile (fun c => c ≠ '/')⟩ =
                  ((cs.dropWhile isSchemeChar).drop 3).takeWhile (fun c => c ≠ '/') := by
                rw [hostData, if_pos rfl, if_neg hcond.1]
                conv_rhs =>
                  rw [← List.take_append_drop 2
                    (((cs.dropWhile isSchemeChar).drop 3).takeWhile (fun c => c ≠ '/'))]
                rw [hwild]
                rfl
              rw [hd]
              exact segments_concat cs hsep
            · exact absurd h (by simp)
          · split at h
            · cases h
              have hd : hostData ⟨cs.takeWhile isSchemeChar, false,
                  ((cs.dropWhile isSchemeChar).drop 3).takeWhile (fun c => c ≠ '/'),
                  ((cs.dropWhile isSchemeChar).drop 3).dropWhile (fun c => c ≠ '/')⟩ =
                  ((cs.dropWhile isSchemeChar).drop 3).takeWhile (fun c => c ≠ '/') := by
                rw [hostData]
                rfl
              rw [hd]
              exact segments_concat cs hsep
            · exact absurd h (by simp)

/-- Claim C9: every URL match pattern string that parses successfully into
the structured pattern form serializes back, via `GetAsString`, to a string
equal to the original input: parse-then-serialize is the identity on
syntactically valid pattern strings. -/
theorem URLPattern.parse_GetAsString (s : String) (p : URLPattern)
    (h : URLPattern.parse s = some p) : p.GetAsString = s := by
  have hr := parseData_round s.data p h
  unfold URLPattern.GetAsString
  rw [hr]

/-- Witness for C9: the pattern `http://*.google.com/*` from the unit test
parses and serializes back to itself. -/
theorem URLPattern.parse_GetAsString_witness :
    URLPattern.parse "http://*.google.com/*" =
      some ⟨"http".data, true, "google.com".data, "/*".data⟩ ∧
    URLPattern.GetAsString ⟨"http".data, true, "google.com".data, "/*".data⟩ =
      "http://*.google.com/*" :=
  ⟨by decide, URLPattern.parse_GetAsString "http://*.google.com/*" _ (by decide)⟩

theorem hexDigitsFixed_length (k n : Nat) : (hexDigitsFixed k n).length = k := by
  induction k generalizing n with
  | zero => rfl
  | succ k ih => simp [hexDigitsFixed, ih]

theorem toHex40_length (n : Nat) : (toHex40 n).length = 40 := by
  show (hexDigitsFixed 40 n).length = 40
  exact hexDigitsFixed_length 40 n

theorem lookupRecord_none_filter (st : Store) (id : String)
    (h : lookupRecord st id = none) :
    st.filter (fun r => ¬ r.id = id) = st := by
  induction st with
  | nil => rfl
  | cons r rest ih =>
    simp only [lookupRecord] at h
    split at h
    · exact absurd h (by simp)
    · rename_i hne
      have hc : decide (¬ r.id = id) = true := by simp [hne]
      rw [List.filter_cons, if_pos hc, ih h]

theorem lookupRecord_filter_none (st : Store) (id : String) :
    lookupRecord (st.filter (fun r => ¬ r.id = id)) id = none := by
  induction st with
  | nil => rfl
  | cons r rest ih =>
    rw [List.filter_cons]
    by_cases h : r.id = id
    · rw [if_neg (by simp [h])]
      exact ih
    · rw [if_pos (by simp [h])]
      simp only [lookupRecord]
      rw [if_neg h]
      exact ih

theorem lookupRecord_setRecord (st : Store) (r : StoreRecord) :
    lookupRecord (setRecord st r) r.id = some r := by
  induction st with
  | nil => simp [setRecord, lookupRecord]
  | cons x rest ih =>
    simp only [setRecord]
    split
    · simp [lookupRecord]
    · rename_i h
      simp [lookupRecord, h, ih]

/-- Claim C6: uninstalling an id for which no store record exists is a
benign no-op: no error is reported and the store is unchanged; moreover a
second uninstall of any id right after the first is always such a no-op, so
a double uninstall is benign. -/
theorem uninstall_idempotent (st : Store) (id : String)
    (h : lookupRecord st id = none) :
    Uninstall st id = (st, false) ∧
    (∀ st2 : Store,
      Uninstall (Uninstall st2 id).1 id = ((Uninstall st2 id).1, false)) := by
  constructor
  · simp only [Uninstall]
    rw [lookupRecord_none_filter st id h]
  · intro st2
    simp only [Uninstall]
    rw [List.filter_filter]
    simp

/-- Witness for C6: a store holding one unrelated record, probed with an id
that is not installed. -/
theorem uninstall_idempotent_witness :
    lookupRecord [(⟨"aa", ["1"], some "1"⟩ : StoreRecord)] "bb" = none ∧
    Uninstall [(⟨"aa", ["1"], some "1"⟩ : StoreRecord)] "bb" =
      ([(⟨"aa", ["1"], some "1"⟩ : StoreRecord)], false) :=
  ⟨by decide,
    (uninstall_idempotent [⟨"aa", ["1"], some "1"⟩] "bb" (by decide)).1⟩

/-- Claim C7: when an id root exists but its current-version marker file is
missing, the store treats the record as having no current version recorded
rather than as an error, and `Uninstall` still removes the entire id
root. -/
theorem missing_marker_recoverable (st : Store) (id : String)
    (r : StoreRecord) (h : lookupRecord st id = some r)
    (hm : r.currentMarker = none) :
    ResolveCurrent st id = .noCurrentVersion ∧
    (Uninstall st id).2 = false ∧
    lookupRecord (Uninstall st id).1 id = none := by
  refine ⟨?_, rfl, lookupRecord_filter_none st id⟩
  simp [ResolveCurrent, h, hm]

/-- Witness for C7: a record for the test extension id whose marker file
has been deleted. -/
theorem missing_marker_recoverable_witness :
    ResolveCurrent
        [(⟨"00123456789abcdef0123456789abcdef0123456", ["1.0.0.0"], none⟩ :
          StoreRecord)]
        "00123456789abcdef0123456789abcdef0123456" = .noCurrentVersion ∧
    lookupRecord
        (Uninstall
          [(⟨"00123456789abcdef0123456789abcdef0123456", ["1.0.0.0"], none⟩ :
            StoreRecord)]
          "00123456789abcdef0123456789abcdef0123456").1
        "00123456789abcdef0123456789abcdef0123456" = none := by
  have h := missing_marker_recoverable
    [⟨"00123456789abcdef0123456789abcdef0123456", ["1.0.0.0"], none⟩]
    "00123456789abcdef0123456789abcdef0123456"
    ⟨"00123456789abcdef0123456789abcdef0123456", ["1.0.0.0"], none⟩
    (by decide) (by decide)
  exact ⟨h.1, h.2.2⟩

theorem validate_none_parse (c : Container)
    (h : validateContainer c = none) :
    ∃ m, parseManifest c.payload = .ok m := by
  simp only [validateContainer] at h
  split at h
  · exact absurd h (by simp)
  split at h
  · exact absurd h (by simp)
  split at h
  · exact absurd h (by simp)
  split at h
  · exact absurd h (by simp)
  split at h
  · exact absurd h (by simp)
  split at h
  · exact absurd h (by simp)
  · rename_i m hm
    exact ⟨m, hm⟩

/-- Claim C2: an install request whose container fails validation at any
step reaches the failed terminal state: the sink never gets an Installed
notification, exactly one error string is recorded, and the store is left
exactly as it was (no trace of the attempted id). -/
theorem failed_install_atomic (st : Store) (c : Container) (e : InstallError)
    (he : validateContainer c = some e) :
    InstallExtension st c = (st, .failed e, [formatInstallError c.path e]) ∧
    (∀ (ext : Extension) (b : Bool),
      (InstallExtension st c).2.1 ≠ .installed ext b) ∧
    (InstallExtension st c).2.2.length = 1 ∧
    (lookupRecord st c.keyId = none →
      lookupRecord (InstallExtension st c).1 c.keyId = none) := by
  have h1 : InstallExtension st c =
      (st, .failed e, [formatInstallError c.path e]) := by
    simp [InstallExtension, he]
  refine ⟨h1, ?_, ?_, ?_⟩ <;> rw [h1] <;> simp

/-- Witness for C2: the zero-length container file fails with a read error,
leaving the empty store empty. -/
theorem failed_install_atomic_witness :
    validateContainer emptyContainer = some InstallError.cannotRead ∧
    InstallExtension [] emptyContainer =
      ([], .failed InstallError.cannotRead,
        [formatInstallError emptyContainer.path InstallError.cannotRead]) :=
  ⟨by decide,
    (failed_install_atomic [] emptyContainer .cannotRead (by decide)).1⟩

/-- Claim C1: installing a valid container twice in succession into a store
that does not yet hold its id delivers exactly the notifications Installed
(first request) then Reinstalled with the package's id (second request) —
never a second Installed — and, in general, an install request yields the
Reinstalled notification exactly when the incoming id and version both
equal the currently marked installation. -/
theorem reinstall_detection (st : Store) (c : Container)
    (hv : validateContainer c = none)
    (habs : lookupRecord st c.keyId = none) :
    (∃ ext : Extension, ext.id = c.keyId ∧
      (runInstalls st [c, c]).2.1 =
        [Notification.installed ext false,
         Notification.reinstalled c.keyId]) ∧
    (∀ st2 : Store,
      (InstallExtension st2 c).2.1 = Notification.reinstalled c.keyId ↔
        ResolveCurrent st2 c.keyId = ResolveResult.current c.version) := by
  obtain ⟨m, hm⟩ := validate_none_parse c hv
  have h1 : InstallExtension st c =
      (setRecord st ⟨c.keyId, [c.version], some c.version⟩,
        .installed (mkExtension c.keyId m c.payload.path .internal) false,
        []) := by
    simp [InstallExtension, hv, hm, habs]
  have h2 : lookupRecord (setRecord st ⟨c.keyId, [c.version], some c.version⟩)
      c.keyId = some ⟨c.keyId, [c.version], some c.version⟩ :=
    lookupRecord_setRecord st ⟨c.keyId, [c.version], some c.version⟩
  have h3 : InstallExtension
      (setRecord st ⟨c.keyId, [c.version], some c.version⟩) c =
      (setRecord st ⟨c.keyId, [c.version], some c.version⟩,
        .reinstalled c.keyId, []) := by
    simp [InstallExtension, hv, hm, h2]
  constructor
  · refine ⟨mkExtension c.keyId m c.payload.path .internal, rfl, ?_⟩
    simp [runInstalls, h1, h3]
  · intro st2
    cases hl : lookupRecord st2 c.keyId with
    | none =>
      simp [InstallExtension, hv, hm, hl, ResolveCurrent]
    | some r =>
      cases hmv : r.currentMarker with
      | none =>
        simp [InstallExtension, hv, hm, hl, hmv, ResolveCurrent]
      | some w =>
        by_cases hw : w = c.version
        · subst hw
          simp [InstallExtension, hv, hm, hl, hmv, ResolveCurrent]
        · simp [InstallExtension, hv, hm, hl, hmv, ResolveCurrent, hw]

/-- Witness for C1: the well-formed container installed twice into an empty
store. -/
theorem reinstall_detection_witness :
    validateContainer goodContainer = none ∧
    (∃ ext : Extension, ext.id = goodContainer.keyId ∧
      (runInstalls [] [goodContainer, goodContainer]).2.1 =
        [Notification.installed ext false,
         Notification.reinstalled goodContainer.keyId]) := by
  have h := reinstall_detection [] goodContainer (by decide) (by decide)
  exact ⟨by decide, h.1⟩

theorem loadSequence_replicate (pkg : PackageDir) (m : ManifestData)
    (h : parseManifest pkg = .ok m) (hid : m.declaredId = none) (n k : Nat) :
    loadSequence (List.replicate n pkg) ⟨k⟩ =
      ((List.range n).map
        (fun i => .ok (mkExtension (toHex40 (k + i)) m pkg.path .load)),
       ⟨k + n⟩) := by
  induction n generalizing k with
  | zero => simp [loadSequence]
  | succ n ih =>
    rw [List.replicate_succ]
    simp only [loadSequence, LoadSingleExtension, loadPackage, h, hid,
      resolveId, generateId]
    rw [ih (k + 1)]
    have harith : ∀ i : Nat, k + 1 + i = k + (i + 1) := by omega
    simp [List.range_succ_eq_map, List.map_map, Function.comp_def, harith]

/-- Claim C5: the ID Generator assigns, over any sequence of loads of an
id-less package in one process, ids equal to a zero-initialized counter
formatted as 40 hex digits (left-padded with zeros), incremented after
each assignment. -/
theorem generated_ids_sequential (pkg : PackageDir) (m : ManifestData)
    (h : parseManifest pkg = .ok m) (hid : m.declaredId = none) (n : Nat) :
    initGenState.counter = 0 ∧
    (loadSequence (List.replicate n pkg) initGenState).1 =
      (List.range n).map
        (fun i => .ok (mkExtension (toHex40 i) m pkg.path .load)) ∧
    (loadSequence (List.replicate n pkg) initGenState).2 = ⟨n⟩ := by
  have hr := loadSequence_replicate pkg m h hid n 0
  rw [show initGenState = (⟨0⟩ : IdGenState) from rfl, hr]
  simp

/-- Witness for C5: loading the same id-less directory twice yields the two
distinct sequential ids of the unit test. -/
theorem generated_ids_sequential_witness :
    parseManifest noIdPkg = .ok ⟨none, "My extension", "", []⟩ ∧
    (loadSequence [noIdPkg, noIdPkg] initGenState).1 =
      [.ok (mkExtension "0000000000000000000000000000000000000000"
          ⟨none, "My extension", "", []⟩ "/ext/no_id" .load),
       .ok (mkExtension "0000000000000000000000000000000000000001"
          ⟨none, "My extension", "", []⟩ "/ext/no_id" .load)] := by
  have h := generated_ids_sequential noIdPkg ⟨none, "My extension", "", []⟩
    rfl rfl 2
  have h2 := h.2.1
  rw [show List.replicate 2 noIdPkg = [noIdPkg, noIdPkg] from rfl] at h2
  refine ⟨rfl, ?_⟩
  rw [h2]
  rfl

theorem parseManifest_declaredId_valid (pkg : PackageDir) (m : ManifestData)
    (h : parseManifest pkg = .ok m) (s : String) (hs : m.declaredId = some s) :
    validExtensionId s = true := by
  simp only [parseManifest] at h
  split at h
  · exact absurd h (by simp)
  · exact absurd h (by simp)
  · rename_i fields
    split at h
    · exact absurd h (by simp)
    · rename_i did hdid
      split at h
      · exact absurd h (by simp)
      · split at h
        · exact absurd h (by simp)
        · split at h
          · exact absurd h (by simp)
          · cases h
            simp only at hs
            simp only [parseDeclaredId] at hdid
            split at hdid
            · cases hdid
              exact absurd hs (by simp)
            · rename_i t heq
              split at hdid
              · rename_i hval
                cases hdid
                obtain rfl : t = s := by simpa using hs
                exact hval
              · exact absurd hdid (by simp)
            · exact absurd hdid (by simp)
  · exact absurd h (by simp)

/-- Claim C10: every successfully constructed Extension's url is the string
`chrome-extension://` followed by the Extension's 40-character id and a
trailing slash. -/
theorem extension_url_from_id (pkg : PackageDir) (loc : Location)
    (g gf : IdGenState) (ext : Extension)
    (h : loadPackage pkg loc g = (.ok ext, gf)) :
    ext.url = "chrome-extension://" ++ ext.id ++ "/" ∧
    ext.id.length = 40 := by
  simp only [loadPackage] at h
  split at h
  · exact absurd h (by simp)
  · rename_i m hm
    have hext : ext = mkExtension (resolveId m.declaredId g).1 m pkg.path loc := by
      have hfst := congrArg Prod.fst h
      simpa using hfst.symm
    subst hext
    refine ⟨rfl, ?_⟩
    cases hd : m.declaredId with
    | none =>
      show (toHex40 g.counter).length = 40
      exact toHex40_length g.counter
    | some s =>
      show s.length = 40
      have hv := parseManifest_declaredId_valid pkg m hm s hd
      simp only [validExtensionId, Bool.and_eq_true, beq_iff_eq] at hv
      exact hv.1

/-- Witness for C10: the first id-less load yields the origin URL recorded
in the unit test. -/
theorem extension_url_from_id_witness :
    loadPackage noIdPkg .load initGenState =
      (.ok (mkExtension (toHex40 0) ⟨none, "My extension", "", []⟩
        "/ext/no_id" .load), ⟨1⟩) ∧
    (mkExtension (toHex40 0) ⟨none, "My extension", "", []⟩ "/ext/no_id"
        .load).url =
      "chrome-extension://0000000000000000000000000000000000000000/" ∧
    (mkExtension (toHex40 0) ⟨none, "My extension", "", []⟩ "/ext/no_id"
        .load).id.length = 40 := by
  have h := extension_url_from_id noIdPkg .load initGenState ⟨1⟩
    (mkExtension (toHex40 0) ⟨none, "My extension", "", []⟩ "/ext/no_id"
      .load) rfl
  refine ⟨rfl, ?_, h.2⟩
  rw [h.1]
  rfl

theorem loadAllAux_errors (pkgs : List PackageDir) (g : IdGenState) :
    (loadAllAux pkgs g).2.1 = loadErrorsOf pkgs := by
  induction pkgs generalizing g with
  | nil => rfl
  | cons p rest ih =>
    cases hp : parseManifest p with
    | error k => simp [loadAllAux, loadErrorsOf, loadPackage, hp, ih]
    | ok m => simp [loadAllAux, loadErrorsOf, loadPackage, hp, ih]

theorem loadAllAux_counts (pkgs : List PackageDir) (g : IdGenState) :
    (loadAllAux pkgs g).1.length = (pkgs.filter manifestOk).length ∧
    (loadAllAux pkgs g).2.1.length =
      (pkgs.filter (fun p => ¬ manifestOk p)).length := by
  induction pkgs generalizing g with
  | nil => exact ⟨rfl, rfl⟩
  | cons p rest ih =>
    cases hp : parseManifest p with
    | error k =>
      constructor
      · simp [loadAllAux, loadPackage, hp, List.filter_cons, manifestOk,
          (ih _).1]
      · simp [loadAllAux, loadPackage, hp, List.filter_cons, manifestOk,
          (ih _).2]
    | ok m =>
      constructor
      · simp [loadAllAux, loadPackage, hp, List.filter_cons, manifestOk,
          (ih _).1]
      · simp [loadAllAux, loadPackage, hp, List.filter_cons, manifestOk,
          (ih _).2]

theorem loadAllAux_mem (pkgs : List PackageDir) (g : IdGenState)
    (p : PackageDir) (m : ManifestData) (hp : p ∈ pkgs)
    (h : parseManifest p = .ok m) :
    ∃ ext ∈ (loadAllAux pkgs g).1, ext.name = m.name ∧ ext.path = p.path := by
  induction pkgs generalizing g with
  | nil => cases hp
  | cons q rest ih =>
    rcases List.mem_cons.mp hp with rfl | hmem
    · refine ⟨mkExtension (resolveId m.declaredId g).1 m p.path .internal,
        ?_, rfl, rfl⟩
      simp [loadAllAux, loadPackage, h]
    · cases hq : parseManifest q with
      | error k =>
        obtain ⟨ext, hin, hx⟩ := ih g hmem
        refine ⟨ext, ?_, hx⟩
        simp [loadAllAux, loadPackage, hq, hin]
      | ok m2 =>
        obtain ⟨ext, hin, hx⟩ := ih (resolveId m2.declaredId g).2 hmem
        refine ⟨ext, ?_, hx⟩
        simp [loadAllAux, loadPackage, hq]
        exact .inr hin

theorem loadErrorsOf_mem (pkgs : List PackageDir) (msg : String)
    (h : msg ∈ loadErrorsOf pkgs) :
    ∃ p k, p ∈ pkgs ∧ parseManifest p = .error k ∧
      msg = formatLoadError p.path k := by
  induction pkgs with
  | nil => cases h
  | cons p rest ih =>
    cases hq : parseManifest p with
    | error k =>
      rw [show loadErrorsOf (p :: rest) =
          formatLoadError p.path k :: loadErrorsOf rest from by
        simp [loadErrorsOf, hq]] at h
      rcases List.mem_cons.mp h with rfl | hmem
      · exact ⟨p, k, List.mem_cons_self p rest, hq, rfl⟩
      · obtain ⟨q, k2, hq2, hk2, rfl⟩ := ih hmem
        exact ⟨q, k2, List.mem_cons_of_mem p hq2, hk2, rfl⟩
    | ok m =>
      rw [show loadErrorsOf (p :: rest) = loadErrorsOf rest from by
        simp [loadErrorsOf, hq]] at h
      obtain ⟨q, k2, hq2, hk2, rfl⟩ := ih h
      exact ⟨q, k2, List.mem_cons_of_mem p hq2, hk2, rfl⟩

/-- Claim C3: the Extensions delivered in the single OnExtensionsLoaded
call of a bulk directory load are ordered by declared name; the delivery is
a permutation of the successfully loaded set, and ties keep their original
scan order (stability). -/
theorem bulk_load_ordered (pkgs : List PackageDir) (g : IdGenState) :
    List.Pairwise (fun a b : Extension => a.name ≤ b.name)
      (LoadExtensionsFromDirectory pkgs g).1 ∧
    (LoadExtensionsFromDirectory pkgs g).1.Perm (loadAllAux pkgs g).1 ∧
    (∀ a b : Extension, [a, b].Sublist (loadAllAux pkgs g).1 →
      a.name ≤ b.name →
      [a, b].Sublist (LoadExtensionsFromDirectory pkgs g).1) := by
  have htrans : ∀ a b c : Extension, nameLE a b → nameLE b c → nameLE a c := by
    intro a b c hab hbc
    simp only [nameLE, decide_eq_true_eq] at hab hbc ⊢
    exact le_trans hab hbc
  have htotal : ∀ a b : Extension, nameLE a b || nameLE b a := by
    intro a b
    simp only [nameLE, Bool.or_eq_true, decide_eq_true_eq]
    exact le_total a.name b.name
  refine ⟨?_, ?_, ?_⟩
  · have hs := List.sorted_mergeSort htrans htotal (loadAllAux pkgs g).1
    exact hs.imp (fun hab => by simpa [nameLE] using hab)
  · exact List.mergeSort_perm (loadAllAux pkgs g).1 nameLE
  · intro a b hsub hab
    exact List.pair_sublist_mergeSort htrans htotal
      (by simpa [nameLE] using hab) hsub

/-- Witness for C3: two well-formed packages scanned in reverse name order;
the delivery is name-sorted while the scan order was not. -/
theorem bulk_load_ordered_witness :
    List.Pairwise (fun a b : Extension => a.name ≤ b.name)
      (LoadExtensionsFromDirectory [goodPkg2, goodPkg] initGenState).1 ∧
    ((loadAllAux [goodPkg2, goodPkg] initGenState).1.map Extension.name) =
      ["My extension 2", "My extension 1"] :=
  ⟨(bulk_load_ordered [goodPkg2, goodPkg] initGenState).1, by rfl⟩

/-- Claim C4: a malformed package never aborts a bulk load: the delivered
Extensions are exactly the well-formed packages (one each, by count and by
membership) and each malformed package contributes exactly one recorded
error string. -/
theorem bulk_load_error_isolation (pkgs : List PackageDir) (g : IdGenState) :
    (LoadExtensionsFromDirectory pkgs g).1.length =
      (pkgs.filter manifestOk).length ∧
    (LoadExtensionsFromDirectory pkgs g).2.1.length =
      (pkgs.filter (fun p => ¬ manifestOk p)).length ∧
    (∀ p ∈ pkgs, ∀ m : ManifestData, parseManifest p = .ok m →
      ∃ ext ∈ (LoadExtensionsFromDirectory pkgs g).1,
        ext.name = m.name ∧ ext.path = p.path) := by
  refine ⟨?_, (loadAllAux_counts pkgs g).2, ?_⟩
  · show ((loadAllAux pkgs g).1.mergeSort nameLE).length = _
    rw [List.length_mergeSort]
    exact (loadAllAux_counts pkgs g).1
  · intro p hp m hpm
    obtain ⟨ext, hin, hx⟩ := loadAllAux_mem pkgs g p m hp hpm
    refine ⟨ext, ?_, hx⟩
    show ext ∈ (loadAllAux pkgs g).1.mergeSort nameLE
    rw [List.mem_mergeSort]
    exact hin

/-- Witness for C4: the directory with 1 well-formed and 3 malformed
packages delivers exactly one Extension and records exactly 3 errors. -/
theorem bulk_load_error_isolation_witness :
    (LoadExtensionsFromDirectory sampleBadDir initGenState).1.length = 1 ∧
    (LoadExtensionsFromDirectory sampleBadDir initGenState).2.1.length = 3 := by
  have h := bulk_load_error_isolation sampleBadDir initGenState
  exact ⟨h.1.trans (by rfl), h.2.1.trans (by rfl)⟩

theorem reasonText_length (k : LoadErrorKind) : 18 ≤ (reasonText k).length := by
  cases k with
  | badRootElementType pos =>
    show 18 ≤ (pos ++ " " ++ kBadRootElementTypeText).length
    have h1 : (" " : String).length = 1 := rfl
    have h2 : kBadRootElementTypeText.length = 38 := rfl
    simp only [String.length_append, h1, h2]
    omega
  | missingFile f =>
    show 18 ≤ ("Could not load file " ++ sq ++ f ++ sq ++ ".").length
    have h1 : ("Could not load file " : String).length = 20 := rfl
    have h2 : sq.length = 1 := rfl
    have h3 : ("." : String).length = 1 := rfl
    simp only [String.length_append, h1, h2, h3]
    omega
  | invalidManifest key =>
    show 18 ≤
      ("Manifest is missing or invalid for key " ++ sq ++ key ++ sq ++
        ".").length
    have h1 : ("Manifest is missing or invalid for key " : String).length = 39 :=
      rfl
    have h2 : sq.length = 1 := rfl
    have h3 : ("." : String).length = 1 := rfl
    simp only [String.length_append, h1, h2, h3]
    omega
  | cannotReadFile f =>
    show 18 ≤ ("Could not read " ++ sq ++ f ++ sq ++ " file.").length
    have h1 : ("Could not read " : String).length = 15 := rfl
    have h2 : sq.length = 1 := rfl
    have h3 : (" file." : String).length = 6 := rfl
    simp only [String.length_append, h1, h2, h3]
    omega

/-- Counterexample for C8: a failed install of a container with a wrong
magic number records exactly one message, but its reason — the bad-magic
diagnostic of the §7 taxonomy — is not any of the four load diagnostics
the claim allows, whatever their parameters: the claim as stated fails on
this install. -/
theorem load_error_message_shape_counterexample :
    validateContainer badMagicContainer = some InstallError.badMagicNumber ∧
    (InstallExtension [] badMagicContainer).2.2 =
      [formatInstallError "/ext/bad_magic.crx" InstallError.badMagicNumber] ∧
    ¬ ∃ k : LoadErrorKind,
        formatInstallError "/ext/bad_magic.crx" InstallError.badMagicNumber =
          formatLoadError "/ext/bad_magic.crx" k := by
  refine ⟨by decide, by decide, ?_⟩
  rintro ⟨k, hk⟩
  have hlen := congrArg String.length hk
  simp only [formatInstallError, formatLoadError, installReasonText,
    String.length_append] at hlen
  have hbm : ("Bad magic number." : String).length = 17 := rfl
  rw [hbm] at hlen
  have hr := reasonText_length k
  omega

/-- Claim C8 (amended): every failed package load — bulk or single —
records exactly one message of the shape `Could not load extension from
<path>. <reason>` with the reason one of the four diagnostics of the first
failed validation step; a failed install records exactly one message of
that same shape, whose reason is the four-diagnostic text when manifest
validation failed, and the container step's own diagnostic otherwise. -/
theorem load_or_install_error_message (pkgs : List PackageDir)
    (g : IdGenState) (pkg : PackageDir) (st : Store) (c : Container) :
    ((LoadExtensionsFromDirectory pkgs g).2.1 = loadErrorsOf pkgs ∧
      (∀ msg ∈ (LoadExtensionsFromDirectory pkgs g).2.1,
        ∃ p k, p ∈ pkgs ∧ parseManifest p = .error k ∧
          msg = "Could not load extension from " ++ sq ++ p.path ++ sq ++
            ". " ++ reasonText k)) ∧
    (∀ k : LoadErrorKind, parseManifest pkg = .error k →
      singleLoadErrors pkg g =
        ["Could not load extension from " ++ sq ++ pkg.path ++ sq ++ ". " ++
          reasonText k]) ∧
    (∀ m : ManifestData, parseManifest pkg = .ok m →
      singleLoadErrors pkg g = []) ∧
    (∀ e : InstallError, validateContainer c = some e →
      (InstallExtension st c).2.2 =
        ["Could not load extension from " ++ sq ++ c.path ++ sq ++ ". " ++
          installReasonText e]) ∧
    (∀ k : LoadErrorKind, installReasonText (.manifestError k) = reasonText k) := by
  have he : (LoadExtensionsFromDirectory pkgs g).2.1 = loadErrorsOf pkgs :=
    loadAllAux_errors pkgs g
  refine ⟨⟨he, ?_⟩, ?_, ?_, ?_, fun k => rfl⟩
  · rw [he]
    intro msg hm
    obtain ⟨p, k, hp, hk, rfl⟩ := loadErrorsOf_mem pkgs msg hm
    exact ⟨p, k, hp, hk, rfl⟩
  · intro k hk
    simp [singleLoadErrors, LoadSingleExtension, loadPackage, hk,
      formatLoadError]
  · intro m hm
    simp [singleLoadErrors, LoadSingleExtension, loadPackage, hm]
  · intro e he
    simp [InstallExtension, he, formatInstallError]

/-- Witness for the amended C8: the missing-file package's failed single
load and the bad-magic container's failed install each record exactly
their one formatted message. -/
theorem load_or_install_error_message_witness :
    singleLoadErrors missingFilePkg initGenState =
      ["Could not load extension from " ++ sq ++ "/ext/bad/missing_file" ++
        sq ++ ". " ++ reasonText (.missingFile "missing.js")] ∧
    (InstallExtension [] badMagicContainer).2.2 =
      ["Could not load extension from " ++ sq ++ "/ext/bad_magic.crx" ++
        sq ++ ". " ++ installReasonText .badMagicNumber] := by
  have h := load_or_install_error_message [] initGenState missingFilePkg []
    badMagicContainer
  exact ⟨h.2.1 (.missingFile "missing.js") (by rfl),
    h.2.2.2.1 .badMagicNumber (by decide)⟩

end ExtSpec
